import Mathlib

/-! Validation and rendering pipeline of `pkg/alloy/config.go`.

A shallow embedding of `Config.Validate`, `Scrape.Validate`, `Kube.Validate` and
`Config.Render`, followed by the theorems that settle the claims of the specification.

Modelling conventions.

* A Go pointer receiver (`*Config`, `*Scrape`, `*Kube`) is an `Option`: `none` is the nil
  pointer.
* A Go `error` is `Option Error`: `none` is the nil error.  `fmt.Errorf` without `%w` builds an
  `Error.errorString`, with `%w` an `Error.wrapError` that keeps the wrapped error; the method
  `Error()` is `Error.message`.
* A Go `map[string]V` is the list of its entries, in the order in which a `range` loop over
  the map visits them.
* Names, addresses and messages are `String`; the rendered text is a list of bytes, since
  `Config.Render` works on `[]byte`.
* Functions that `config.go` calls but that are declared elsewhere (`Targets.Validate`,
  `validateIdentifier`, `tmpl.Render`, the embedded template, the `%q` verb of `fmt`) are the
  fields of `Deps`.
* `Config.ValidateTraced` is `Config.Validate` together with the list of the validators its
  body calls, in order.
* `treeReadingDeps` models `Targets.Validate` and `tmpl.Render` as functions of the data tree,
  that is of the config with every mapping in key order.
-/

namespace Alloy

/-! ## Errors -/

/-- Go error values as built by `fmt.Errorf`: a plain message, or a message together with the
error wrapped through `%w`. -/
inductive Error where
  | errorString (msg : String)
  | wrapError (msg : String) (err : Error)
deriving DecidableEq, Repr

/-- The method `Error()` of an error: its message. -/
def Error.message : Error → String
  | .errorString msg => msg
  | .wrapError msg _ => msg

/-- The method `Unwrap()` of an error: the error wrapped through `%w`, when there is one. -/
def Error.Unwrap : Error → Option Error
  | .errorString _ => none
  | .wrapError _ err => some err

/-- The call `fmt.Errorf(msg)` with a constant format without verbs. -/
def Errorf (msg : String) : Error := .errorString msg

/-- The call `fmt.Errorf(lead + "%w", err)`: the message is `lead` followed by the message of
`err`, and `err` is kept as the wrapped error. -/
def ErrorfW (lead : String) (err : Error) : Error :=
  .wrapError (lead ++ err.message) err

/-! ## Data model -/

/-- Go type `ScrapeSelf`. -/
structure ScrapeSelf where
  Enable : Bool := false
deriving DecidableEq, Repr

/-- Go type `ScrapeUnix`. -/
structure ScrapeUnix where
  Enable : Bool := false
  Collectors : List String := []
deriving DecidableEq, Repr

/-- Go type `Scrape`. -/
structure Scrape where
  IntervalSeconds : Nat := 0
  Address : String := ""
  Self : ScrapeSelf := {}
  Unix : ScrapeUnix := {}
deriving DecidableEq, Repr

/-- Go type `Kube`. -/
structure Kube where
  PodLogs : Bool := false
  Events : Bool := false
deriving DecidableEq, Repr

/-- Modelled from the spec: the declaration of `TargetBasicAuth` is not among the sources; the
fields are the credentials of section 3, as `config_test.go` fills them. -/
structure TargetBasicAuth where
  Username : String := ""
  Password : String := ""
deriving DecidableEq, Repr

/-- Modelled from the spec: the declaration of `Target` is not among the sources; the fields are
those of a remote-write destination in section 3, as `config_test.go` fills them. -/
structure Target where
  URL : String := ""
  BasicAuth : Option TargetBasicAuth := none
  BearerToken : String := ""
  InsecureSkipVerify : Bool := false
  Labels : List (String × String) := []
deriving DecidableEq, Repr

/-- Modelled from the spec: the declaration of `PrometheusTarget` is not among the sources; a
metrics destination with its optional push interval. -/
structure PrometheusTarget where
  Target : Target := {}
  SendIntervalSeconds : Nat := 0
deriving DecidableEq, Repr

/-- Modelled from the spec: the declaration of `LokiTarget` is not among the sources; a log
destination. -/
structure LokiTarget where
  Target : Target := {}
deriving DecidableEq, Repr

/-- Modelled from the spec: the declaration of `Targets` is not among the sources; two mappings
from a name to a destination, one for metrics and one for logs. -/
structure Targets where
  Prometheus : List (String × PrometheusTarget) := []
  Loki : List (String × LokiTarget) := []
deriving DecidableEq, Repr

/-- Go type `Config`.  `Scrapes` lists the entries of the map in the order a `range` loop
visits them; `LogFiles` is the slice `[]string` of `config.go`. -/
structure Config where
  Hostname : String := ""
  Targets : Targets := {}
  ProxyURL : String := ""
  Scrapes : List (String × Scrape) := []
  LogFiles : List String := []
  Kube : Kube := {}
deriving DecidableEq, Repr

/-- A byte of a Go string or of a `[]byte`. -/
abbrev Byte := Fin 256

/-- What `config.go` uses and does not declare. -/
structure Deps where
  /-- The method `Targets.Validate`. -/
  targetsValidate : Targets → Option Error
  /-- The function `validateIdentifier` of the package. -/
  validateIdentifier : String → Option Error
  /-- The text the verb `%q` of `fmt` prints for a string (`strconv.Quote`). -/
  quote : String → String
  /-- The embedded template source `configTemplate`. -/
  configTemplate : String
  /-- The function `tmpl.Render(name, template, data)`: the bytes and the error it returns. -/
  tmplRender : String → String → Config → List Byte × Option Error

/-! ## Validation -/

/-- Go method `(*Scrape).Validate`. -/
def Scrape.Validate : Option Scrape → Option Error
  | none => some (Errorf "scrape is nil")
  | some s =>
    let opts : Nat := 0
    let opts := if s.Address ≠ "" then opts + 1 else opts
    let opts := if s.Self.Enable then opts + 1 else opts
    let opts := if s.Unix.Enable then opts + 1 else opts
    if opts = 0 then
      some (Errorf "no scrape options enabled")
    else if opts > 1 then
      some (Errorf "multiple scrape options enabled")
    else
      none

/-- Go method `(*Kube).Validate`. -/
def Kube.Validate : Option Kube → Option Error
  | none => some (Errorf "kube is nil")
  | some _ => none

/-- The loop `for name, scrape := range cfg.Scrapes` of `Config.Validate`, over the entries in
the order visited: the first failing check returns, and `none` means the loop ran to its end. -/
def validateScrapes (deps : Deps) : List (String × Scrape) → Option Error
  | [] => none
  | (name, scrape) :: rest =>
    match deps.validateIdentifier name with
    | some err => some (ErrorfW ("invalid scrape name " ++ deps.quote name ++ ": ") err)
    | none =>
      match Scrape.Validate (some scrape) with
      | some err => some (ErrorfW ("invalid scrape " ++ deps.quote name ++ ": ") err)
      | none => validateScrapes deps rest

/-- Go method `(*Config).Validate`. -/
def Config.Validate (deps : Deps) : Option Config → Option Error
  | none => some (Errorf "config is nil")
  | some cfg =>
    match deps.targetsValidate cfg.Targets with
    | some err => some (ErrorfW "invalid targets: " err)
    | none => validateScrapes deps cfg.Scrapes

/-! ## Go standard library: `unicode/utf8` and `unicode` -/

/-- Constant `utf8.RuneError`. -/
def RuneError : Nat := 0xFFFD

/-- Constant `utf8.RuneSelf`. -/
def RuneSelf : Nat := 0x80

/-- Constant `utf8.UTFMax`. -/
def UTFMax : Nat := 4

/-- Table `first` of `unicode/utf8`: information about the first byte of an encoding
(`as = 0xF0`, `xx = 0xF1`, `s1 = 0x02`, `s2 = 0x13`, `s3 = 0x03`, `s4 = 0x23`, `s5 = 0x34`,
`s6 = 0x04`, `s7 = 0x44`). -/
def first (b : Nat) : Nat :=
  if b < 0x80 then 0xF0
  else if b < 0xC2 then 0xF1
  else if b < 0xE0 then 0x02
  else if b = 0xE0 then 0x13
  else if b < 0xED then 0x03
  else if b = 0xED then 0x23
  else if b < 0xF0 then 0x03
  else if b = 0xF0 then 0x34
  else if b < 0xF4 then 0x04
  else if b = 0xF4 then 0x44
  else 0xF1

/-- Table `acceptRanges` of `unicode/utf8`: the lowest and highest value allowed for the
second byte. -/
def acceptRanges (i : Nat) : Nat × Nat :=
  match i with
  | 0 => (0x80, 0xBF)
  | 1 => (0xA0, 0xBF)
  | 2 => (0x80, 0x9F)
  | 3 => (0x90, 0xBF)
  | 4 => (0x80, 0x8F)
  | _ => (0, 0)

/-- The byte `s[i]` of a string, as a number (`0` outside the string, which no caller
reaches). -/
def byteAt (s : List Byte) (i : Nat) : Nat := (s.getD i 0).val

/-- Go function `utf8.DecodeRuneInString`: the first rune of `s` and its width in bytes. -/
def DecodeRuneInString (s : List Byte) : Nat × Nat :=
  let n := s.length
  if n < 1 then (RuneError, 0)
  else
    let s0 := byteAt s 0
    let x := first s0
    if x ≥ 0xF0 then
      (if x &&& 1 = 0 then s0 else RuneError, 1)
    else
      let sz := x &&& 7
      let accept := acceptRanges (x >>> 4)
      if n < sz then (RuneError, 1)
      else
        let s1 := byteAt s 1
        if s1 < accept.1 ∨ accept.2 < s1 then (RuneError, 1)
        else if sz ≤ 2 then (((s0 &&& 0x1F) <<< 6) ||| (s1 &&& 0x3F), 2)
        else
          let s2 := byteAt s 2
          if s2 < 0x80 ∨ 0xBF < s2 then (RuneError, 1)
          else if sz ≤ 3 then
            (((s0 &&& 0x0F) <<< 12) ||| ((s1 &&& 0x3F) <<< 6) ||| (s2 &&& 0x3F), 3)
          else
            let s3 := byteAt s 3
            if s3 < 0x80 ∨ 0xBF < s3 then (RuneError, 1)
            else
              (((s0 &&& 0x07) <<< 18) ||| ((s1 &&& 0x3F) <<< 12) ||| ((s2 &&& 0x3F) <<< 6)
                ||| (s3 &&& 0x3F), 4)

/-- Go function `utf8.RuneStart`: the byte is not a continuation byte. -/
def RuneStart (b : Nat) : Bool := b &&& 0xC0 != 0x80

/-- The backwards search of `utf8.DecodeLastRuneInString`:
`for start--; start >= lim; start-- { if RuneStart(s[start]) { break } }`, entered with `start`
already decremented; the value of `start` when the loop is left. -/
def decodeLastStart (s : List Byte) (lim : Int) : Nat → Int → Int
  | 0, start => start
  | fuel + 1, start =>
    if start ≥ lim then
      if RuneStart (byteAt s start.toNat) then start
      else decodeLastStart s lim fuel (start - 1)
    else start

/-- Go function `utf8.DecodeLastRuneInString`: the last rune of `s` and its width in bytes. -/
def DecodeLastRuneInString (s : List Byte) : Nat × Nat :=
  let «end» : Int := s.length
  if «end» = 0 then (RuneError, 0)
  else
    let start := «end» - 1
    let r := byteAt s start.toNat
    if r < RuneSelf then (r, 1)
    else
      let lim := «end» - UTFMax
      let lim := if lim < 0 then 0 else lim
      let start := decodeLastStart s lim (UTFMax + 1) (start - 1)
      let start := if start < 0 then 0 else start
      let (r, size) := DecodeRuneInString ((s.drop start.toNat).take («end» - start).toNat)
      if start + size ≠ «end» then (RuneError, 1)
      else (r, size)

/-- Go function `unicode.IsSpace`: the Latin-1 spaces, and beyond Latin-1 the code points of
the table `White_Space`. -/
def IsSpace (r : Nat) : Bool :=
  if r ≤ 0xFF then
    r = 0x09 ∨ r = 0x0A ∨ r = 0x0B ∨ r = 0x0C ∨ r = 0x0D ∨ r = 0x20 ∨ r = 0x85 ∨ r = 0xA0
  else
    r = 0x1680 ∨ (0x2000 ≤ r ∧ r ≤ 0x200A) ∨ r = 0x2028 ∨ r = 0x2029 ∨ r = 0x202F
      ∨ r = 0x205F ∨ r = 0x3000

/-! ## Go standard library: `strings` -/

/-- Table `asciiSpace` of `strings`: `1` for tab, newline, vertical tab, form feed, carriage
return and space. -/
def asciiSpace (c : Nat) : Nat :=
  if c = 0x09 ∨ c = 0x0A ∨ c = 0x0B ∨ c = 0x0C ∨ c = 0x0D ∨ c = 0x20 then 1 else 0

/-- The loop `for i, r := range s` of `strings.indexFunc`, from byte offset `i` with `s` the
rest of the string from there. -/
def indexFuncLoop (f : Nat → Bool) (truth : Bool) : Nat → Nat → List Byte → Int
  | 0, _, _ => -1
  | fuel + 1, i, s =>
    if s.length > 0 then
      let (r, size) := DecodeRuneInString s
      if f r == truth then (i : Int)
      else indexFuncLoop f truth fuel (i + size) (s.drop size)
    else -1

/-- Go function `strings.indexFunc`: the offset of the first rune `r` with `f(r) == truth`, or
`-1`. -/
def indexFunc (s : List Byte) (f : Nat → Bool) (truth : Bool) : Int :=
  indexFuncLoop f truth s.length 0 s

/-- The loop `for i := len(s); i > 0;` of `strings.lastIndexFunc`. -/
def lastIndexFuncLoop (s : List Byte) (f : Nat → Bool) (truth : Bool) : Nat → Nat → Int
  | 0, _ => -1
  | fuel + 1, i =>
    if i > 0 then
      let (r, size) := DecodeLastRuneInString (s.take i)
      let i := i - size
      if f r == truth then (i : Int)
      else lastIndexFuncLoop s f truth fuel i
    else -1

/-- Go function `strings.lastIndexFunc`: the offset of the last rune `r` with
`f(r) == truth`, or `-1`. -/
def lastIndexFunc (s : List Byte) (f : Nat → Bool) (truth : Bool) : Int :=
  lastIndexFuncLoop s f truth s.length s.length

/-- Go function `strings.TrimLeftFunc`. -/
def TrimLeftFunc (s : List Byte) (f : Nat → Bool) : List Byte :=
  let i := indexFunc s f false
  if i = -1 then []
  else s.drop i.toNat

/-- Go function `strings.TrimRightFunc`. -/
def TrimRightFunc (s : List Byte) (f : Nat → Bool) : List Byte :=
  let i := lastIndexFunc s f false
  let i :=
    if i ≥ 0 ∧ byteAt s i.toNat ≥ RuneSelf then
      i + (DecodeRuneInString (s.drop i.toNat)).2
    else i + 1
  s.take i.toNat

/-- Go function `strings.TrimFunc`. -/
def TrimFunc (s : List Byte) (f : Nat → Bool) : List Byte :=
  TrimRightFunc (TrimLeftFunc s f) f

/-- The first loop of `strings.TrimSpace`, over `start`: either the function returns from
inside the loop (left) or the loop ends with the final `start` (right). -/
def trimSpaceStart (s : List Byte) : Nat → Nat → List Byte ⊕ Nat
  | 0, start => .inr start
  | fuel + 1, start =>
    if start < s.length then
      let c := byteAt s start
      if c ≥ RuneSelf then .inl (TrimFunc (s.drop start) IsSpace)
      else if asciiSpace c = 0 then .inr start
      else trimSpaceStart s fuel (start + 1)
    else .inr start

/-- The second loop of `strings.TrimSpace`, over `stop`: either the function returns from
inside the loop (left) or the loop ends with the final `stop` (right). -/
def trimSpaceStop (s : List Byte) (start : Nat) : Nat → Nat → List Byte ⊕ Nat
  | 0, stop => .inr stop
  | fuel + 1, stop =>
    if stop > start then
      let c := byteAt s (stop - 1)
      if c ≥ RuneSelf then .inl (TrimRightFunc ((s.drop start).take (stop - start)) IsSpace)
      else if asciiSpace c = 0 then .inr stop
      else trimSpaceStop s start fuel (stop - 1)
    else .inr stop

/-- Go function `strings.TrimSpace`: `s` without its leading and trailing white space. -/
def TrimSpace (s : List Byte) : List Byte :=
  match trimSpaceStart s s.length 0 with
  | .inl res => res
  | .inr start =>
    match trimSpaceStop s start s.length s.length with
    | .inl res => res
    | .inr stop => (s.drop start).take (stop - start)

/-- Go function `strings.IndexByte`: the offset of the first byte `c` of `s`, or `-1`. -/
def IndexByte : List Byte → Byte → Int
  | [], _ => -1
  | b :: s, c =>
    if b = c then 0
    else
      let i := IndexByte s c
      if i ≥ 0 then i + 1 else -1

/-- The byte of the line terminator, `\n`. -/
def newline : Byte := 10

/-- The loop `for len(s) > 0` of `strings.Lines`: the lines it yields, in order. -/
def linesLoop : Nat → List Byte → List (List Byte)
  | 0, _ => []
  | fuel + 1, s =>
    if s.length > 0 then
      let i := IndexByte s newline
      if i ≥ 0 then
        s.take (i.toNat + 1) :: linesLoop fuel (s.drop (i.toNat + 1))
      else [s]
    else []

/-- Go function `strings.Lines`: the lines of `s`, each with its terminating newline; a last
line without newline is yielded as it is, and the empty string has no line. -/
def Lines (s : List Byte) : List (List Byte) := linesLoop s.length s

/-! ## Rendering -/

/-- The loop `for line := range strings.Lines(string(data))` of `Config.Render`: `res` is the
content of the `strings.Builder`, and the result is its content after the last line. -/
def renderLines (res : List Byte) : List (List Byte) → List Byte
  | [] => res
  | line :: rest =>
    if TrimSpace line = [] then renderLines res rest
    else renderLines (res ++ line) rest

/-- The blank-line filter of `Config.Render`: lines 118 to 126, from the expanded text to the
bytes returned. -/
def stripBlankLines (data : List Byte) : List Byte :=
  renderLines [] (Lines data)

/-- Go method `(*Config).Render`: the bytes (`none` is the nil slice) and the error
returned. -/
def Config.Render (deps : Deps) : Option Config → Option (List Byte) × Option Error
  | none => (none, some (Errorf "config is nil"))
  | some cfg =>
    match Config.Validate deps (some cfg) with
    | some err => (none, some (ErrorfW "invalid config: " err))
    | none =>
      match deps.tmplRender "config.alloy.tmpl" deps.configTemplate cfg with
      | (_, some err) => (none, some (ErrorfW "failed to render config: " err))
      | (data, none) => (some (stripBlankLines data), none)

/-! ## Reading of the specification -/

/-- The number of collection sources a scrape enables, counted as the specification words it:
how many of the three conditions "address set", "self enabled", "unix enabled" hold. -/
def enabledSources (s : Scrape) : Nat :=
  [decide (s.Address ≠ ""), s.Self.Enable, s.Unix.Enable].count true

/-- A line that ends at its terminator: bytes without newline, followed by one newline. -/
def Terminated (l : List Byte) : Prop :=
  ∃ body, l = body ++ [newline] ∧ newline ∉ body

/-- A line without terminator: not empty and without newline. -/
def Unterminated (l : List Byte) : Prop :=
  l ≠ [] ∧ newline ∉ l

/-- The shape of a text cut into lines at line terminators: every line ends at its terminator,
except that the last one may be a line without terminator. -/
def LineSeq : List (List Byte) → Prop
  | [] => True
  | l :: rest => (Terminated l ∨ (Unterminated l ∧ rest = [])) ∧ LineSeq rest

/-- A line is blank when nothing is left of it after trimming white space. -/
def isBlank (line : List Byte) : Bool := decide (TrimSpace line = [])

/-- What the specification says validation reads of a scrape entry: its name, whether its
address is set, and its two flags. -/
def scrapeView (p : String × Scrape) : String × Bool × Bool × Bool :=
  (p.1, decide (p.2.Address ≠ ""), p.2.Self.Enable, p.2.Unix.Enable)

/-- Whether a scrape entry passes the two checks of the loop of `Config.Validate`. -/
def entryAccepted (deps : Deps) (p : String × Scrape) : Prop :=
  deps.validateIdentifier p.1 = none ∧ Scrape.Validate (some p.2) = none

instance entryAcceptedDecidable (deps : Deps) (p : String × Scrape) :
    Decidable (entryAccepted deps p) :=
  inferInstanceAs
    (Decidable (deps.validateIdentifier p.1 = none ∧ Scrape.Validate (some p.2) = none))

/-! ## Calls made by the validator -/

/-- A call of `Config.Validate` to the validator of a sub-structure or of a name. -/
inductive Call where
  | targetsValidate (targets : Targets)
  | validateIdentifier (name : String)
  | scrapeValidate (scrape : Scrape)
  | kubeValidate (kube : Kube)
deriving DecidableEq, Repr

/-- The loop of `Config.Validate` over the scrape entries, in the order visited, with the
calls it makes: `validateIdentifier(name)` and then `scrape.Validate()` for each entry, up to
the first failing check. -/
def validateScrapesTraced (deps : Deps) : List (String × Scrape) → Option Error × List Call
  | [] => (none, [])
  | (name, scrape) :: rest =>
    match deps.validateIdentifier name with
    | some err =>
      (some (ErrorfW ("invalid scrape name " ++ deps.quote name ++ ": ") err),
        [Call.validateIdentifier name])
    | none =>
      match Scrape.Validate (some scrape) with
      | some err =>
        (some (ErrorfW ("invalid scrape " ++ deps.quote name ++ ": ") err),
          [Call.validateIdentifier name, Call.scrapeValidate scrape])
      | none =>
        ((validateScrapesTraced deps rest).1,
          Call.validateIdentifier name :: Call.scrapeValidate scrape ::
            (validateScrapesTraced deps rest).2)

/-- Go method `(*Config).Validate` with the calls it makes, in order: the error returned and
the validators called on the way. -/
def Config.ValidateTraced (deps : Deps) : Option Config → Option Error × List Call
  | none => (some (Errorf "config is nil"), [])
  | some cfg =>
    match deps.targetsValidate cfg.Targets with
    | some err => (some (ErrorfW "invalid targets: " err), [Call.targetsValidate cfg.Targets])
    | none =>
      ((validateScrapesTraced deps cfg.Scrapes).1,
        Call.targetsValidate cfg.Targets :: (validateScrapesTraced deps cfg.Scrapes).2)

/-! ## The data tree as the code outside `config.go` reads it -/

/-- The entries of a mapping in the order of their keys. -/
def sortByKey {β : Type} (l : List (String × β)) : List (String × β) :=
  l.insertionSort (fun a b => a.1 ≤ b.1)

/-- A destination with its label mapping in key order. -/
def canonicalTarget (t : Target) : Target :=
  { t with Labels := sortByKey t.Labels }

/-- An entry of the metrics mapping with its destination in canonical form. -/
def canonicalPrometheus (p : String × PrometheusTarget) : String × PrometheusTarget :=
  (p.1, { p.2 with Target := canonicalTarget p.2.Target })

/-- An entry of the logs mapping with its destination in canonical form. -/
def canonicalLoki (p : String × LokiTarget) : String × LokiTarget :=
  (p.1, { p.2 with Target := canonicalTarget p.2.Target })

/-- The targets with both mappings, and the label mapping of every destination, in key
order. -/
def canonicalTargets (t : Targets) : Targets :=
  { Prometheus := sortByKey (t.Prometheus.map canonicalPrometheus)
    Loki := sortByKey (t.Loki.map canonicalLoki) }

/-- The data tree with every mapping in key order: what is left of a `Config` when the order
in which the entries of its maps are visited is forgotten. -/
def canonicalTree (cfg : Config) : Config :=
  { cfg with Targets := canonicalTargets cfg.Targets, Scrapes := sortByKey cfg.Scrapes }

/-- Modelled from the spec: `Targets.Validate` and `tmpl.Render` are not among the sources.
By sections 3 and 6 they are given the data tree, whose mappings have unique keys and no
order, and section 9 settles the order of rendering by sorting the keys: the two functions of
`base` are applied to the tree with every mapping in key order. -/
def treeReadingDeps (base : Deps) : Deps :=
  { base with
    targetsValidate := fun t => base.targetsValidate (canonicalTargets t)
    tmplRender := fun name template cfg => base.tmplRender name template (canonicalTree cfg) }

/-- Two entry lists of the same mapping: the same keys, in any order, with values related by
`R`. -/
def SameMap {β : Type} (R : β → β → Prop) (l1 l2 : List (String × β)) : Prop :=
  ∃ mid, l1.Perm mid ∧ List.Forall₂ (fun a b => a.1 = b.1 ∧ R a.2 b.2) mid l2

/-- Two values of the same destination: equal fields, and label entries equal up to order. -/
def SameTarget (t1 t2 : Target) : Prop :=
  t1.URL = t2.URL ∧ t1.BasicAuth = t2.BasicAuth ∧ t1.BearerToken = t2.BearerToken ∧
    t1.InsecureSkipVerify = t2.InsecureSkipVerify ∧ t1.Labels.Perm t2.Labels

/-- Two values of the same targets: both mappings hold the same destinations, in any order. -/
def SameTargets (t1 t2 : Targets) : Prop :=
  SameMap (fun a b => SameTarget a.Target b.Target ∧
      a.SendIntervalSeconds = b.SendIntervalSeconds) t1.Prometheus t2.Prometheus ∧
    SameMap (fun a b => SameTarget a.Target b.Target) t1.Loki t2.Loki

/-- Two values of the same tree, as two calls may see it: equal fields, and every mapping
with the same entries in any order. -/
def SameTree (c1 c2 : Config) : Prop :=
  c1.Hostname = c2.Hostname ∧ SameTargets c1.Targets c2.Targets ∧ c1.ProxyURL = c2.ProxyURL ∧
    c1.Scrapes.Perm c2.Scrapes ∧ c1.LogFiles = c2.LogFiles ∧ c1.Kube = c2.Kube

/-- The keys of every mapping of the tree are distinct, as in a Go map. -/
def UniqueKeys (c : Config) : Prop :=
  (c.Scrapes.map Prod.fst).Nodup ∧ (c.Targets.Prometheus.map Prod.fst).Nodup ∧
    (c.Targets.Loki.map Prod.fst).Nodup ∧
    (∀ p ∈ c.Targets.Prometheus, (p.2.Target.Labels.map Prod.fst).Nodup) ∧
    (∀ p ∈ c.Targets.Loki, (p.2.Target.Labels.map Prod.fst).Nodup)

/-! ## Sample dependencies, for concrete instances -/

/-- Modelled from the spec: `validateIdentifier` is not among the sources; section 4.1 asks
for a non-empty name of letters, digits and underscores that does not start with a digit.  The
message is not given by the specification. -/
def validateIdentifierModel (name : String) : Option Error :=
  match name.data with
  | [] => some (Errorf "invalid identifier")
  | c :: cs =>
    if (c.isAlpha || c == '_') && cs.all (fun d => d.isAlphanum || d == '_') then none
    else some (Errorf "invalid identifier")

/-- A sample of the verb `%q`: the name between double quotes, which is what `strconv.Quote`
prints for printable ASCII without quote or backslash. -/
def sampleQuote (name : String) : String :=
  String.singleton (Char.ofNat 34) ++ name ++ String.singleton (Char.ofNat 34)

/-- A sample template engine: it fails on a host named `boom` and otherwise prints the text
`a`, an empty line, a line of a space and a tab, and `b` without terminator. -/
def sampleRender (_name _template : String) (cfg : Config) : List Byte × Option Error :=
  if cfg.Hostname = "boom" then ([], some (Errorf "template: no such field"))
  else ([97, 10, 10, 32, 9, 10, 98], none)

/-- Sample dependencies: every `Targets` is accepted, names follow `validateIdentifierModel`. -/
def sampleDeps : Deps where
  targetsValidate := fun _ => none
  validateIdentifier := validateIdentifierModel
  quote := sampleQuote
  configTemplate := ""
  tmplRender := sampleRender

/-- The scrape jobs of the case `no-targets` of `TestConfigRender`. -/
def testScrapes : List (String × Scrape) :=
  [("test_address", { IntervalSeconds := 42, Address := "localhost:12345" }),
   ("test_self", { IntervalSeconds := 43, Self := { Enable := true } }),
   ("test_unix", { IntervalSeconds := 44, Unix := { Enable := true, Collectors := ["asd"] } })]

/-- The bytes of an ASCII name. -/
def nameBytes (name : String) : List Byte :=
  name.data.map (fun c => Fin.ofNat c.toNat)

/-- A sample template engine that prints, in the order of the entries it is given, the name
of each metrics destination followed by the keys of its labels, an empty line, and the name of
each scrape job, one per line. -/
def listingRender (_name _template : String) (cfg : Config) : List Byte × Option Error :=
  ((cfg.Targets.Prometheus.map (fun p =>
      nameBytes p.1 ++ [newline] ++
        (p.2.Target.Labels.map (fun kv => nameBytes kv.1 ++ [newline])).flatten)).flatten ++
    [newline] ++
    (cfg.Scrapes.map (fun p => nameBytes p.1 ++ [newline])).flatten, none)

/-- Sample dependencies whose engine is `listingRender`. -/
def listingDeps : Deps :=
  { sampleDeps with tmplRender := listingRender }

/-- A sample metrics destination with two labels. -/
def cloudTarget : Target :=
  { URL := "https://prom.example/push", Labels := [("a", "b"), ("c", "d")] }

/-- The destination `cloudTarget` with its labels in the other order. -/
def cloudTargetSwapped : Target :=
  { URL := "https://prom.example/push", Labels := [("c", "d"), ("a", "b")] }

/-- A sample metrics destination with a bearer token. -/
def anotherTarget : Target :=
  { URL := "https://another.com/prom/push", BearerToken := "secret", InsecureSkipVerify := true }

/-- A sample tree: two metrics destinations, one with two labels, and the scrape jobs of the
render test. -/
def orderSampleA : Config :=
  { Targets := { Prometheus :=
      [("grafana_cloud", { Target := cloudTarget }), ("another", { Target := anotherTarget })] },
    Scrapes := testScrapes }

/-- The tree of `orderSampleA` with the entries of its three mappings in another order. -/
def orderSampleB : Config :=
  { Targets := { Prometheus :=
      [("another", { Target := anotherTarget }),
       ("grafana_cloud", { Target := cloudTargetSwapped })] },
    Scrapes :=
      [("test_self", { IntervalSeconds := 43, Self := { Enable := true } }),
       ("test_address", { IntervalSeconds := 42, Address := "localhost:12345" }),
       ("test_unix", { IntervalSeconds := 44, Unix := { Enable := true, Collectors := ["asd"] } })] }

/-! ## Validation: lemmas -/

theorem scrape_validate_some (s : Scrape) :
    Scrape.Validate (some s) =
      if enabledSources s = 0 then some (Errorf "no scrape options enabled")
      else if enabledSources s > 1 then some (Errorf "multiple scrape options enabled")
      else none := by
  rcases s with ⟨iv, addr, ⟨se⟩, ⟨ue, cs⟩⟩
  by_cases ha : addr = "" <;> cases se <;> cases ue <;>
    simp [Scrape.Validate, enabledSources, ha]

theorem scrape_validate_eq_none_iff (s : Scrape) :
    Scrape.Validate (some s) = none ↔ enabledSources s = 1 := by
  rw [scrape_validate_some]
  split_ifs <;> simp <;> omega

theorem validateScrapes_eq_none_iff (deps : Deps) (l : List (String × Scrape)) :
    validateScrapes deps l = none ↔
      ∀ p ∈ l, deps.validateIdentifier p.1 = none ∧ Scrape.Validate (some p.2) = none := by
  induction l with
  | nil => simp [validateScrapes]
  | cons p rest ih =>
    obtain ⟨name, scrape⟩ := p
    cases hN : deps.validateIdentifier name with
    | some e => simp [validateScrapes, hN]
    | none =>
      cases hS : Scrape.Validate (some scrape) with
      | some e => simp [validateScrapes, hN, hS]
      | none => simp [validateScrapes, hN, hS, ih]

theorem validateScrapes_engine (deps : Deps)
    (engine : String → String → Config → List Byte × Option Error)
    (l : List (String × Scrape)) :
    validateScrapes { deps with tmplRender := engine } l = validateScrapes deps l := by
  induction l with
  | nil => rfl
  | cons p rest ih =>
    obtain ⟨name, scrape⟩ := p
    simp only [validateScrapes, ih]

theorem config_validate_engine (deps : Deps)
    (engine : String → String → Config → List Byte × Option Error) (c : Option Config) :
    Config.Validate { deps with tmplRender := engine } c = Config.Validate deps c := by
  cases c with
  | none => rfl
  | some cfg => simp only [Config.Validate, validateScrapes_engine]

/-! ## Validation: the claims -/

/-- Claim C1: for a non-nil scrape, `Scrape.Validate` succeeds exactly when exactly one of
"address not empty", "self enabled", "unix enabled" holds, and returns an error exactly when
none or at least two of them hold; `IntervalSeconds` and `Unix.Collectors` do not matter. -/
theorem scrape_validate_iff_exactly_one (s : Scrape) :
    (Scrape.Validate (some s) = none ↔ enabledSources s = 1) ∧
    ((∃ e, Scrape.Validate (some s) = some e) ↔ enabledSources s = 0 ∨ 2 ≤ enabledSources s) ∧
    (∀ (interval : Nat) (collectors : List String),
      Scrape.Validate (some { s with
        IntervalSeconds := interval, Unix := { s.Unix with Collectors := collectors } }) =
      Scrape.Validate (some s)) := by
  refine ⟨scrape_validate_eq_none_iff s, ?_, ?_⟩
  · rw [scrape_validate_some]
    split_ifs <;> simp <;> omega
  · intro interval collectors
    simp [scrape_validate_some, enabledSources]

/-- Claim C2: `Config.Validate` succeeds exactly when the config is not nil, `Targets.Validate`
accepts its targets, and every scrape entry has a name accepted by `validateIdentifier` and a
scrape accepted by `Scrape.Validate`, that is with exactly one collection source enabled. -/
theorem config_validate_iff (deps : Deps) (c : Option Config) :
    Config.Validate deps c = none ↔
      ∃ cfg, c = some cfg ∧ deps.targetsValidate cfg.Targets = none ∧
        ∀ name scrape, (name, scrape) ∈ cfg.Scrapes →
          deps.validateIdentifier name = none ∧ Scrape.Validate (some scrape) = none ∧
            enabledSources scrape = 1 := by
  cases c with
  | none => simp [Config.Validate]
  | some cfg =>
    cases hT : deps.targetsValidate cfg.Targets with
    | some e => simp [Config.Validate, hT]
    | none =>
      simp only [Config.Validate, hT, validateScrapes_eq_none_iff, Option.some.injEq,
        exists_eq_left', true_and, Prod.forall]
      constructor
      · intro h name scrape hmem
        have := h name scrape hmem
        exact ⟨this.1, this.2, (scrape_validate_eq_none_iff scrape).1 this.2⟩
      · intro h name scrape hmem
        exact ⟨(h name scrape hmem).1, (h name scrape hmem).2.1⟩

/-- Claim C3: a non-nil scrape with no source enabled is rejected with the message
"no scrape options enabled", and one with two or three sources enabled is rejected with the
message "multiple scrape options enabled". -/
theorem scrape_validate_message (s : Scrape) :
    (enabledSources s = 0 →
      ∃ e, Scrape.Validate (some s) = some e ∧ e.message = "no scrape options enabled") ∧
    (2 ≤ enabledSources s →
      ∃ e, Scrape.Validate (some s) = some e ∧
        e.message = "multiple scrape options enabled") := by
  constructor
  · intro h
    exact ⟨Errorf "no scrape options enabled", by simp [scrape_validate_some, h], rfl⟩
  · intro h
    refine ⟨Errorf "multiple scrape options enabled", ?_, rfl⟩
    rw [scrape_validate_some, if_neg (by omega), if_pos (by omega)]

/-- Instance of C3: an address together with `Self.Enable = true` counts two sources and is
reported as "multiple scrape options enabled". -/
theorem scrape_validate_message_witness :
    2 ≤ enabledSources { Address := "localhost:12345", Self := { Enable := true } } ∧
    ∃ e, Scrape.Validate (some { Address := "localhost:12345", Self := { Enable := true } })
        = some e ∧ e.message = "multiple scrape options enabled" :=
  ⟨by decide,
    (scrape_validate_message { Address := "localhost:12345", Self := { Enable := true } }).2
      (by decide)⟩

/-- Claim C4: when the targets validate and the only scrape entry has an accepted name and a
scrape rejected with error `e`, `Config.Validate` fails with the message "invalid scrape ",
the quoted name, ": " and the message of `e`, which is one of the two messages of
`Scrape.Validate`. -/
theorem config_validate_names_rejected_scrape (deps : Deps) (cfg : Config) (name : String)
    (s : Scrape) (e : Error)
    (hT : deps.targetsValidate cfg.Targets = none)
    (hS : cfg.Scrapes = [(name, s)])
    (hN : deps.validateIdentifier name = none)
    (hE : Scrape.Validate (some s) = some e) :
    (∃ err, Config.Validate deps (some cfg) = some err ∧
      err.message = "invalid scrape " ++ deps.quote name ++ ": " ++ e.message) ∧
    (e.message = "no scrape options enabled" ∨
      e.message = "multiple scrape options enabled") := by
  constructor
  · refine ⟨ErrorfW ("invalid scrape " ++ deps.quote name ++ ": ") e, ?_, rfl⟩
    simp [Config.Validate, hT, hS, validateScrapes, hN, hE]
  · rw [scrape_validate_some] at hE
    split_ifs at hE <;> simp at hE <;> subst hE <;> simp [Errorf, Error.message]

/-- Instance of C4: the job `node` with an address and `Self.Enable = true`. -/
theorem config_validate_names_rejected_scrape_witness :
    (∃ err, Config.Validate sampleDeps (some { Scrapes :=
        [("node", { Address := "localhost:12345", Self := { Enable := true } })] }) = some err ∧
      err.message = "invalid scrape " ++ sampleDeps.quote "node" ++ ": " ++
        (Errorf "multiple scrape options enabled").message) ∧
    ((Errorf "multiple scrape options enabled").message = "no scrape options enabled" ∨
      (Errorf "multiple scrape options enabled").message = "multiple scrape options enabled") :=
  config_validate_names_rejected_scrape sampleDeps
    { Scrapes := [("node", { Address := "localhost:12345", Self := { Enable := true } })] }
    "node" { Address := "localhost:12345", Self := { Enable := true } }
    (Errorf "multiple scrape options enabled") rfl rfl (by decide) (by decide)

/-- Claim C5: when `validateIdentifier` rejects the name of some scrape entry with error `e`,
`Config.Validate` fails; and when that entry is the only one and the targets validate, the
message is "invalid scrape name ", the quoted name, ": " and the message of `e`, whatever the
options of the scrape are. -/
theorem config_validate_rejects_bad_name (deps : Deps) (cfg : Config) (name : String)
    (s : Scrape) (e : Error)
    (hmem : (name, s) ∈ cfg.Scrapes)
    (hbad : deps.validateIdentifier name = some e) :
    Config.Validate deps (some cfg) ≠ none ∧
    (deps.targetsValidate cfg.Targets = none → cfg.Scrapes = [(name, s)] →
      ∃ err, Config.Validate deps (some cfg) = some err ∧
        err.message = "invalid scrape name " ++ deps.quote name ++ ": " ++ e.message) := by
  constructor
  · intro h
    cases hT : deps.targetsValidate cfg.Targets with
    | some e0 => simp [Config.Validate, hT] at h
    | none =>
      simp only [Config.Validate, hT] at h
      have := ((validateScrapes_eq_none_iff deps cfg.Scrapes).1 h (name, s) hmem).1
      simp [hbad] at this
  · intro hT hS
    refine ⟨ErrorfW ("invalid scrape name " ++ deps.quote name ++ ": ") e, ?_, rfl⟩
    simp [Config.Validate, hT, hS, validateScrapes, hbad]

/-- Instance of C5: the job name `bad name` holds a space, and its scrape enables nothing. -/
theorem config_validate_rejects_bad_name_witness :
    Config.Validate sampleDeps (some { Scrapes := [("bad name", {})] }) ≠ none ∧
    (sampleDeps.targetsValidate ({ Scrapes := [("bad name", {})] } : Config).Targets = none →
      ({ Scrapes := [("bad name", {})] } : Config).Scrapes = [("bad name", {})] →
      ∃ err, Config.Validate sampleDeps (some { Scrapes := [("bad name", {})] }) = some err ∧
        err.message = "invalid scrape name " ++ sampleDeps.quote "bad name" ++ ": " ++
          (Errorf "invalid identifier").message) :=
  config_validate_rejects_bad_name sampleDeps { Scrapes := [("bad name", {})] } "bad name" {}
    (Errorf "invalid identifier") (by simp) (by decide)

/-- Counterexample to C6: a config whose only log-file entry `sys log` holds a space, and is
rejected by the identifier rule, passes `Config.Validate`. -/
theorem config_validate_accepts_log_file_with_space :
    validateIdentifierModel "sys log" ≠ none ∧
    Config.Validate sampleDeps (some { LogFiles := ["sys log"] }) = none := by
  decide

/-- Claim C6, amended: `Config.Validate` does not look at `LogFiles`; its result is the same
whatever the log-file entries are, and it succeeds exactly when the targets validate and every
scrape entry has an accepted name and an accepted scrape, so the identifier rule is applied to
scrape-job names only. -/
theorem config_validate_ignores_log_files (deps : Deps) (cfg : Config) (logFiles : List String) :
    Config.Validate deps (some { cfg with LogFiles := logFiles }) =
      Config.Validate deps (some cfg) ∧
    (Config.Validate deps (some { cfg with LogFiles := logFiles }) = none ↔
      deps.targetsValidate cfg.Targets = none ∧
        ∀ p ∈ cfg.Scrapes,
          deps.validateIdentifier p.1 = none ∧ Scrape.Validate (some p.2) = none) := by
  refine ⟨by simp [Config.Validate], ?_⟩
  cases hT : deps.targetsValidate cfg.Targets with
  | some e => simp [Config.Validate, hT]
  | none =>
    simp only [Config.Validate, hT, true_and]
    exact validateScrapes_eq_none_iff deps cfg.Scrapes

/-! ## Rendering: the claims on its control flow -/

/-- Claim C7: a nil input is an error value: `Config.Validate` on nil returns "config is nil",
`Config.Render` on nil returns no bytes and "config is nil" whatever the validators and the
template engine are, `Scrape.Validate` on nil returns "scrape is nil" and `Kube.Validate` on
nil returns "kube is nil". -/
theorem nil_input_is_an_error (deps : Deps) :
    Config.Validate deps none = some (Errorf "config is nil") ∧
    (Errorf "config is nil").message = "config is nil" ∧
    Config.Render deps none = (none, some (Errorf "config is nil")) ∧
    Scrape.Validate none = some (Errorf "scrape is nil") ∧
    (Errorf "scrape is nil").message = "scrape is nil" ∧
    Kube.Validate none = some (Errorf "kube is nil") ∧
    (Errorf "kube is nil").message = "kube is nil" :=
  ⟨rfl, rfl, rfl, rfl, rfl, rfl, rfl⟩

/-- Claim C8: when `Config.Validate` fails with `e` on a non-nil config, `Config.Render`
returns no bytes and an error that wraps `e` with the message "invalid config: " followed by
the message of `e`, whatever the template engine would return; and `Config.Render` never
returns bytes together with an error. -/
theorem render_of_invalid_config (deps : Deps) (cfg : Config) (e : Error)
    (h : Config.Validate deps (some cfg) = some e) :
    (∀ (engine : String → String → Config → List Byte × Option Error),
      Config.Render { deps with tmplRender := engine } (some cfg) =
        (none, some (Error.wrapError ("invalid config: " ++ e.message) e))) ∧
    Config.Render deps (some cfg) =
      (none, some (Error.wrapError ("invalid config: " ++ e.message) e)) ∧
    (∀ (c : Option Config), (Config.Render deps c).2 ≠ none → (Config.Render deps c).1 = none) := by
  have hV : ∀ engine : String → String → Config → List Byte × Option Error,
      Config.Validate { deps with tmplRender := engine } (some cfg) = some e := by
    intro engine
    rw [config_validate_engine, h]
  refine ⟨?_, ?_, ?_⟩
  · intro engine
    simp only [Config.Render, hV engine, ErrorfW]
  · simp only [Config.Render, h, ErrorfW]
  · intro c hc
    cases c with
    | none => rfl
    | some c0 =>
      simp only [Config.Render] at hc ⊢
      cases hv : Config.Validate deps (some c0) with
      | some e0 => rfl
      | none =>
        rw [hv] at hc
        rcases ht : deps.tmplRender "config.alloy.tmpl" deps.configTemplate c0 with ⟨data, _ | e1⟩
        · rw [ht] at hc
          simp at hc
        · rfl

/-- Instance of C8: a job that enables nothing makes rendering fail with the wrapped
validation error. -/
theorem render_of_invalid_config_witness :
    (∀ (engine : String → String → Config → List Byte × Option Error),
      Config.Render { sampleDeps with tmplRender := engine }
          (some { Scrapes := [("node", {})] }) =
        (none, some (Error.wrapError ("invalid config: " ++
          (ErrorfW ("invalid scrape " ++ sampleQuote "node" ++ ": ")
            (Errorf "no scrape options enabled")).message)
          (ErrorfW ("invalid scrape " ++ sampleQuote "node" ++ ": ")
            (Errorf "no scrape options enabled"))))) ∧
    Config.Render sampleDeps (some { Scrapes := [("node", {})] }) =
      (none, some (Error.wrapError ("invalid config: " ++
          (ErrorfW ("invalid scrape " ++ sampleQuote "node" ++ ": ")
            (Errorf "no scrape options enabled")).message)
          (ErrorfW ("invalid scrape " ++ sampleQuote "node" ++ ": ")
            (Errorf "no scrape options enabled")))) ∧
    (∀ (c : Option Config),
      (Config.Render sampleDeps c).2 ≠ none → (Config.Render sampleDeps c).1 = none) :=
  render_of_invalid_config sampleDeps { Scrapes := [("node", {})] }
    (ErrorfW ("invalid scrape " ++ sampleQuote "node" ++ ": ")
      (Errorf "no scrape options enabled")) (by decide)

/-- Claim C9: on a non-nil config `Config.Render` succeeds exactly when `Config.Validate`
succeeds and the template expansion succeeds; then the bytes are the blank-line filter applied
to the expanded text; and when validation succeeds and the expansion fails with `e`, the result
is no bytes and an error wrapping `e` with the message "failed to render config: " followed by
the message of `e`.  The scrape jobs built by the render test are accepted. -/
theorem render_iff_valid_and_expanded (deps : Deps) (cfg : Config) :
    ((Config.Render deps (some cfg)).2 = none ↔
      Config.Validate deps (some cfg) = none ∧
        (deps.tmplRender "config.alloy.tmpl" deps.configTemplate cfg).2 = none) ∧
    ((Config.Render deps (some cfg)).2 = none →
      (Config.Render deps (some cfg)).1 =
        some (stripBlankLines (deps.tmplRender "config.alloy.tmpl" deps.configTemplate cfg).1)) ∧
    (∀ e, Config.Validate deps (some cfg) = none →
      (deps.tmplRender "config.alloy.tmpl" deps.configTemplate cfg).2 = some e →
      Config.Render deps (some cfg) =
        (none, some (Error.wrapError ("failed to render config: " ++ e.message) e))) ∧
    (∀ p ∈ testScrapes, Scrape.Validate (some p.2) = none) := by
  refine ⟨?_, ?_, ?_, by decide⟩
  · cases hv : Config.Validate deps (some cfg) with
    | some e0 => simp [Config.Render, hv]
    | none =>
      rcases ht : deps.tmplRender "config.alloy.tmpl" deps.configTemplate cfg with ⟨data, _ | e1⟩
      · simp [Config.Render, hv, ht]
      · simp [Config.Render, hv, ht]
  · cases hv : Config.Validate deps (some cfg) with
    | some e0 => simp [Config.Render, hv]
    | none =>
      rcases ht : deps.tmplRender "config.alloy.tmpl" deps.configTemplate cfg with ⟨data, _ | e1⟩
      · simp [Config.Render, hv, ht]
      · simp [Config.Render, hv, ht]
  · intro e hv he
    rcases ht : deps.tmplRender "config.alloy.tmpl" deps.configTemplate cfg with ⟨data, _ | e1⟩
    · rw [ht] at he
      simp at he
    · rw [ht] at he
      simp only [Option.some.injEq] at he
      subst he
      simp [Config.Render, hv, ht, ErrorfW]

/-- Instance of C9: with the sample dependencies the scrape jobs of the render test render
without error, to the sample text without its two blank lines; and on the host `boom`, where
the sample engine fails, the error is wrapped. -/
theorem render_iff_valid_and_expanded_witness :
    Config.Render sampleDeps (some { Scrapes := testScrapes }) = (some [97, 10, 98], none) ∧
    Config.Render sampleDeps (some { Hostname := "boom", Scrapes := testScrapes }) =
      (none, some (Error.wrapError ("failed to render config: " ++
        (Errorf "template: no such field").message) (Errorf "template: no such field"))) :=
  ⟨by
    have h := (render_iff_valid_and_expanded sampleDeps { Scrapes := testScrapes }).2.1
      (by decide)
    have h2 : (Config.Render sampleDeps (some { Scrapes := testScrapes })).2 = none := by
      decide
    exact Prod.ext (h.trans (by decide)) h2,
   (render_iff_valid_and_expanded sampleDeps { Hostname := "boom", Scrapes := testScrapes }).2.2.1
      (Errorf "template: no such field") (by decide) (by decide)⟩

/-! ## Lines: lemmas -/

theorem IndexByte_of_not_mem (s : List Byte) (c : Byte) (h : c ∉ s) : IndexByte s c = -1 := by
  induction s with
  | nil => rfl
  | cons b s ih =>
    have hb : b ≠ c := fun hbc => h (by simp [hbc])
    have hs : c ∉ s := fun hcs => h (List.mem_cons_of_mem _ hcs)
    simp [IndexByte, hb, ih hs]

theorem IndexByte_append_cons (body t : List Byte) (c : Byte) (h : c ∉ body) :
    IndexByte (body ++ c :: t) c = body.length := by
  induction body with
  | nil => simp [IndexByte]
  | cons b body ih =>
    have hb : b ≠ c := fun hbc => h (by simp [hbc])
    have hs : c ∉ body := fun hcs => h (List.mem_cons_of_mem _ hcs)
    have h0 : (0 : Int) ≤ (body.length : Int) := Int.ofNat_nonneg _
    simp [IndexByte, hb, ih hs, h0]

theorem first_occurrence (s : List Byte) (c : Byte) :
    c ∉ s ∨ ∃ body t, s = body ++ c :: t ∧ c ∉ body := by
  induction s with
  | nil => exact Or.inl (by simp)
  | cons b s ih =>
    by_cases hb : b = c
    · exact Or.inr ⟨[], s, by simp [hb], by simp⟩
    · rcases ih with h | ⟨body, t, hs, hbody⟩
      · exact Or.inl (by simp [h, Ne.symm hb])
      · exact Or.inr ⟨b :: body, t, by simp [hs], by simp [hbody, Ne.symm hb]⟩

theorem linesLoop_terminated (fuel : Nat) (body t : List Byte) (h : newline ∉ body) :
    linesLoop (fuel + 1) (body ++ newline :: t) = (body ++ [newline]) :: linesLoop fuel t := by
  have hsplit : body ++ newline :: t = (body ++ [newline]) ++ t := by simp
  have hlen : (body ++ [newline]).length = body.length + 1 := by simp
  have htake : List.take (body.length + 1) (body ++ newline :: t) = body ++ [newline] := by
    rw [hsplit, ← hlen, List.take_left]
  have hdrop : List.drop (body.length + 1) (body ++ newline :: t) = t := by
    rw [hsplit, ← hlen, List.drop_left]
  have h0 : (0 : Int) ≤ (body.length : Int) := Int.ofNat_nonneg _
  simp only [linesLoop, IndexByte_append_cons body t newline h]
  simp [h0, htake, hdrop]

theorem linesLoop_unterminated (fuel : Nat) (s : List Byte) (hs : s ≠ [])
    (h : newline ∉ s) : linesLoop (fuel + 1) s = [s] := by
  have hlen : 0 < s.length := List.length_pos.2 hs
  simp [linesLoop, IndexByte_of_not_mem s newline h, hlen]

theorem linesLoop_lineSeq (fuel : Nat) : ∀ s : List Byte, s.length ≤ fuel →
    LineSeq (linesLoop fuel s) := by
  induction fuel with
  | zero => intro s _; simp [linesLoop, LineSeq]
  | succ fuel ih =>
    intro s hs
    by_cases hnil : s = []
    · subst hnil
      simp [linesLoop, LineSeq]
    · rcases first_occurrence s newline with h | ⟨body, t, hst, hbody⟩
      · rw [linesLoop_unterminated fuel s hnil h]
        exact ⟨Or.inr ⟨⟨hnil, h⟩, rfl⟩, trivial⟩
      · subst hst
        rw [linesLoop_terminated fuel body t hbody]
        refine ⟨Or.inl ⟨body, rfl, hbody⟩, ih t ?_⟩
        simp at hs
        omega

theorem linesLoop_flatten (fuel : Nat) : ∀ s : List Byte, s.length ≤ fuel →
    (linesLoop fuel s).flatten = s := by
  induction fuel with
  | zero =>
    intro s hs
    have : s = [] := List.length_eq_zero.1 (by omega)
    subst this
    simp [linesLoop]
  | succ fuel ih =>
    intro s hs
    by_cases hnil : s = []
    · subst hnil
      simp [linesLoop]
    · rcases first_occurrence s newline with h | ⟨body, t, hst, hbody⟩
      · rw [linesLoop_unterminated fuel s hnil h]
        simp
      · subst hst
        rw [linesLoop_terminated fuel body t hbody]
        have : t.length ≤ fuel := by
          simp at hs
          omega
        simp [ih t this]

theorem linesLoop_of_lineSeq : ∀ ls : List (List Byte), LineSeq ls →
    ∀ fuel, ls.flatten.length ≤ fuel → linesLoop fuel ls.flatten = ls := by
  intro ls
  induction ls with
  | nil =>
    intro _ fuel _
    cases fuel <;> simp [linesLoop]
  | cons l rest ih =>
    intro hseq fuel hfuel
    obtain ⟨hl, hrest⟩ := hseq
    rcases hl with ⟨body, hbody, hnl⟩ | ⟨⟨hne, hnl⟩, hlast⟩
    · subst hbody
      have hflat : (((body ++ [newline]) :: rest).flatten) = body ++ newline :: rest.flatten := by
        simp
      rw [hflat] at hfuel ⊢
      cases fuel with
      | zero => simp at hfuel
      | succ fuel =>
        rw [linesLoop_terminated fuel body rest.flatten hnl, ih hrest fuel]
        simp only [List.length_append, List.length_cons] at hfuel
        omega
    · subst hlast
      have hflat : ([l] : List (List Byte)).flatten = l := by simp
      rw [hflat] at hfuel ⊢
      cases fuel with
      | zero =>
        have : l = [] := List.length_eq_zero.1 (by omega)
        exact absurd this hne
      | succ fuel => exact linesLoop_unterminated fuel l hne hnl

theorem lineSeq_filter (p : List Byte → Bool) : ∀ ls : List (List Byte), LineSeq ls →
    LineSeq (ls.filter p) := by
  intro ls
  induction ls with
  | nil => intro h; simpa using h
  | cons l rest ih =>
    intro h
    obtain ⟨hl, hrest⟩ := h
    by_cases hp : p l = true
    · rw [List.filter_cons_of_pos hp]
      refine ⟨?_, ih hrest⟩
      rcases hl with ht | ⟨hu, hlast⟩
      · exact Or.inl ht
      · exact Or.inr ⟨hu, by simp [hlast]⟩
    · rw [List.filter_cons_of_neg hp]
      exact ih hrest

theorem renderLines_eq (ls : List (List Byte)) : ∀ res : List Byte,
    renderLines res ls = res ++ (ls.filter (fun l => !isBlank l)).flatten := by
  induction ls with
  | nil => intro res; simp [renderLines]
  | cons l rest ih =>
    intro res
    by_cases hb : TrimSpace l = []
    · simp [renderLines, hb, ih, isBlank]
    · simp [renderLines, hb, ih, isBlank]

theorem stripBlankLines_eq (data : List Byte) :
    stripBlankLines data = ((Lines data).filter (fun l => !isBlank l)).flatten := by
  simp [stripBlankLines, renderLines_eq]

theorem Lines_lineSeq (s : List Byte) : LineSeq (Lines s) :=
  linesLoop_lineSeq s.length s (Nat.le_refl _)

theorem Lines_flatten (s : List Byte) : (Lines s).flatten = s :=
  linesLoop_flatten s.length s (Nat.le_refl _)

theorem Lines_stripBlankLines (data : List Byte) :
    Lines (stripBlankLines data) = (Lines data).filter (fun l => !isBlank l) := by
  rw [stripBlankLines_eq]
  exact linesLoop_of_lineSeq _ (lineSeq_filter _ _ (Lines_lineSeq data)) _ (Nat.le_refl _)

/-! ## Rendering: the claims on its output -/

/-- Claim C10: when `Config.Render` returns bytes for a config, whatever text the template
expansion produced, cutting these bytes into lines again with `strings.Lines` gives no line
whose content is empty after `strings.TrimSpace`; the lines found are exactly the lines kept
from the expanded text, also when its last line has no terminator. -/
theorem render_output_has_no_blank_line (deps : Deps) (cfg : Config) (out : List Byte)
    (h : (Config.Render deps (some cfg)).1 = some out) :
    (∀ line ∈ Lines out, TrimSpace line ≠ []) ∧
    Lines out =
      (Lines (deps.tmplRender "config.alloy.tmpl" deps.configTemplate cfg).1).filter
        (fun l => !isBlank l) := by
  have hout : out = stripBlankLines
      (deps.tmplRender "config.alloy.tmpl" deps.configTemplate cfg).1 := by
    cases hv : Config.Validate deps (some cfg) with
    | some e0 => simp [Config.Render, hv] at h
    | none =>
      rcases ht : deps.tmplRender "config.alloy.tmpl" deps.configTemplate cfg with ⟨data, _ | e1⟩
      · simp [Config.Render, hv, ht] at h
        exact h.symm
      · simp [Config.Render, hv, ht] at h
  subst hout
  rw [Lines_stripBlankLines]
  refine ⟨?_, rfl⟩
  intro line hline
  have := (List.mem_filter.1 hline).2
  simpa [isBlank] using this

/-- Instance of C10: the sample text has an empty line, a line of white space and a last line
without terminator; the bytes returned split into the two lines `a` and `b`. -/
theorem render_output_has_no_blank_line_witness :
    (Config.Render sampleDeps (some { Scrapes := testScrapes })).1 = some [97, 10, 98] ∧
    (∀ line ∈ Lines [97, 10, 98], TrimSpace line ≠ []) ∧
    Lines [97, 10, 98] =
      (Lines (sampleDeps.tmplRender "config.alloy.tmpl" sampleDeps.configTemplate
        { Scrapes := testScrapes }).1).filter (fun l => !isBlank l) :=
  ⟨by decide,
    render_output_has_no_blank_line sampleDeps { Scrapes := testScrapes } [97, 10, 98]
      (by decide)⟩

/-! ## The blank-line filter: lemmas -/

theorem flatten_filter_length_le (p : List Byte → Bool) (ls : List (List Byte)) :
    (ls.filter p).flatten.length ≤ ls.flatten.length := by
  induction ls with
  | nil => simp
  | cons l rest ih =>
    by_cases hp : p l = true
    · rw [List.filter_cons_of_pos hp]
      simp only [List.flatten_cons, List.length_append]
      omega
    · rw [List.filter_cons_of_neg hp]
      simp only [List.flatten_cons, List.length_append]
      omega

theorem filter_kept_idem (ls : List (List Byte)) :
    (ls.filter (fun l => !isBlank l)).filter (fun l => !isBlank l) =
      ls.filter (fun l => !isBlank l) := by
  rw [List.filter_filter]
  congr 1
  funext l
  simp

/-- Claim C11: the post-processing pass of `Config.Render` is an order-preserving filter: its
output is the concatenation, in the original order, of the lines of the raw text whose trimmed
content is not empty, each kept byte for byte with its terminator; the lines of the raw text
concatenate back to the raw text, the kept lines are a subsequence of them, and the non-blank
lines of the output are the non-blank lines of the raw text, in the same order. -/
theorem stripBlankLines_is_order_preserving_filter (data : List Byte) :
    stripBlankLines data = ((Lines data).filter (fun l => !isBlank l)).flatten ∧
    (Lines data).flatten = data ∧
    ((Lines data).filter (fun l => !isBlank l)).Sublist (Lines data) ∧
    Lines (stripBlankLines data) = (Lines data).filter (fun l => !isBlank l) ∧
    (Lines (stripBlankLines data)).filter (fun l => !isBlank l) =
      (Lines data).filter (fun l => !isBlank l) := by
  refine ⟨stripBlankLines_eq data, Lines_flatten data, List.filter_sublist _,
    Lines_stripBlankLines data, ?_⟩
  rw [Lines_stripBlankLines, filter_kept_idem]

/-- Claim C19: the blank-line filter of `Config.Render` is idempotent, it returns a text
without blank line unchanged, and its output is never longer than its input. -/
theorem stripBlankLines_idempotent (data : List Byte) :
    stripBlankLines (stripBlankLines data) = stripBlankLines data ∧
    ((∀ line ∈ Lines data, TrimSpace line ≠ []) → stripBlankLines data = data) ∧
    (stripBlankLines data).length ≤ data.length := by
  refine ⟨?_, ?_, ?_⟩
  · rw [stripBlankLines_eq (stripBlankLines data), Lines_stripBlankLines, filter_kept_idem,
      ← stripBlankLines_eq]
  · intro h
    have hall : (Lines data).filter (fun l => !isBlank l) = Lines data := by
      rw [List.filter_eq_self]
      intro l hl
      simpa [isBlank] using h l hl
    rw [stripBlankLines_eq, hall, Lines_flatten]
  · rw [stripBlankLines_eq]
    calc ((Lines data).filter (fun l => !isBlank l)).flatten.length
        ≤ (Lines data).flatten.length := flatten_filter_length_le _ _
      _ = data.length := by rw [Lines_flatten]

/-- Instance of C19: the text of the two lines `a` and `b` has no blank line and is returned as
it is, while the sample text loses its two blank lines and is then stable. -/
theorem stripBlankLines_idempotent_witness :
    (∀ line ∈ Lines [97, 10, 98], TrimSpace line ≠ []) ∧
    stripBlankLines [97, 10, 98] = [97, 10, 98] ∧
    stripBlankLines (stripBlankLines [97, 10, 10, 32, 9, 10, 98]) =
      stripBlankLines [97, 10, 10, 32, 9, 10, 98] ∧
    (stripBlankLines [97, 10, 10, 32, 9, 10, 98]).length ≤ 7 :=
  ⟨by decide, (stripBlankLines_idempotent [97, 10, 98]).2.1 (by decide),
    (stripBlankLines_idempotent [97, 10, 10, 32, 9, 10, 98]).1,
    (stripBlankLines_idempotent [97, 10, 10, 32, 9, 10, 98]).2.2⟩

/-! ## Validation and visit order: lemmas -/

theorem validateScrapes_cons_accepted (deps : Deps) (p : String × Scrape)
    (rest : List (String × Scrape)) (h : entryAccepted deps p) :
    validateScrapes deps (p :: rest) = validateScrapes deps rest := by
  obtain ⟨name, scrape⟩ := p
  obtain ⟨hN, hS⟩ := h
  simp only at hN hS
  simp only [validateScrapes, hN, hS]

theorem validateScrapes_cons_rejected (deps : Deps) (p : String × Scrape)
    (rest : List (String × Scrape)) (h : ¬ entryAccepted deps p) :
    validateScrapes deps (p :: rest) = validateScrapes deps [p] := by
  obtain ⟨name, scrape⟩ := p
  cases hN : deps.validateIdentifier name with
  | some e => simp only [validateScrapes, hN]
  | none =>
    cases hS : Scrape.Validate (some scrape) with
    | some e => simp only [validateScrapes, hN, hS]
    | none => exact absurd ⟨hN, hS⟩ h

theorem validateScrapes_all_accepted (deps : Deps) (l : List (String × Scrape))
    (h : ∀ p ∈ l, entryAccepted deps p) : validateScrapes deps l = none :=
  (validateScrapes_eq_none_iff deps l).2 h

theorem validateScrapes_append_accepted (deps : Deps) (pre rest : List (String × Scrape))
    (h : ∀ p ∈ pre, entryAccepted deps p) :
    validateScrapes deps (pre ++ rest) = validateScrapes deps rest := by
  induction pre with
  | nil => rfl
  | cons p pre ih =>
    rw [List.cons_append, validateScrapes_cons_accepted deps p _ (h p (by simp))]
    exact ih (fun x hx => h x (List.mem_cons_of_mem _ hx))

theorem validateScrapes_perm_none (deps : Deps) (l l2 : List (String × Scrape))
    (h : l.Perm l2) : validateScrapes deps l = none ↔ validateScrapes deps l2 = none := by
  rw [validateScrapes_eq_none_iff, validateScrapes_eq_none_iff]
  constructor
  · intro hl p hp
    exact hl p (h.mem_iff.2 hp)
  · intro hl p hp
    exact hl p (h.mem_iff.1 hp)

theorem validateScrapes_single_rejected (deps : Deps) (q : String × Scrape) :
    ∀ l : List (String × Scrape), (∀ p ∈ l, p ≠ q → entryAccepted deps p) →
      validateScrapes deps l = if q ∈ l then validateScrapes deps [q] else none := by
  intro l
  induction l with
  | nil => intro _; simp [validateScrapes]
  | cons p rest ih =>
    intro h
    by_cases hpq : p = q
    · subst hpq
      simp only [List.mem_cons, true_or, if_true]
      by_cases hacc : entryAccepted deps p
      · have hall : ∀ x ∈ p :: rest, entryAccepted deps x := by
          intro x hx
          by_cases hxp : x = p
          · rw [hxp]; exact hacc
          · exact h x hx hxp
        rw [validateScrapes_all_accepted deps _ hall,
          validateScrapes_all_accepted deps [p] (fun x hx => hall x (by
            rw [List.mem_singleton] at hx
            rw [hx]
            exact List.mem_cons_self _ _))]
      · exact validateScrapes_cons_rejected deps p rest hacc
    · rw [validateScrapes_cons_accepted deps p rest (h p (List.mem_cons_self _ _) hpq),
        ih (fun x hx => h x (List.mem_cons_of_mem _ hx))]
      have : (q ∈ p :: rest) ↔ q ∈ rest := by
        simp [List.mem_cons, Ne.symm hpq]
      simp only [this]

theorem validateScrapes_perm_single_rejected (deps : Deps) (q : String × Scrape)
    (l l2 : List (String × Scrape)) (hperm : l2.Perm l)
    (h : ∀ p ∈ l, p ≠ q → entryAccepted deps p) :
    validateScrapes deps l2 = validateScrapes deps l := by
  rw [validateScrapes_single_rejected deps q l h,
    validateScrapes_single_rejected deps q l2 (fun p hp => h p (hperm.mem_iff.1 hp))]
  have : (q ∈ l2) ↔ q ∈ l := hperm.mem_iff
  simp only [this]

theorem scrape_validate_view (s t : Scrape)
    (h : (decide (s.Address ≠ ""), s.Self.Enable, s.Unix.Enable) =
      (decide (t.Address ≠ ""), t.Self.Enable, t.Unix.Enable)) :
    Scrape.Validate (some s) = Scrape.Validate (some t) := by
  have hcount : enabledSources s = enabledSources t := by
    simp only [Prod.mk.injEq] at h
    simp only [enabledSources, h.1, h.2.1, h.2.2]
  rw [scrape_validate_some, scrape_validate_some, hcount]

theorem validateScrapes_view (deps : Deps) : ∀ l l2 : List (String × Scrape),
    l.map scrapeView = l2.map scrapeView → validateScrapes deps l = validateScrapes deps l2 := by
  intro l
  induction l with
  | nil =>
    intro l2 h
    cases l2 with
    | nil => rfl
    | cons _ _ => simp at h
  | cons p rest ih =>
    intro l2 h
    cases l2 with
    | nil => simp at h
    | cons p2 rest2 =>
      obtain ⟨name, s⟩ := p
      obtain ⟨name2, s2⟩ := p2
      simp only [List.map_cons, List.cons.injEq, scrapeView, Prod.mk.injEq] at h
      obtain ⟨⟨hname, ha, hs, hu⟩, hrest⟩ := h
      subst hname
      have hsv : Scrape.Validate (some s) = Scrape.Validate (some s2) :=
        scrape_validate_view s s2 (by simp only [ha, hs, hu])
      simp only [validateScrapes, hsv, ih rest2 hrest]

/-! ## Validation and visit order: the claims -/

/-- Counterexample to C13: the two jobs `a` and `b` both enable nothing; visited as `a`, `b`
validation names `a`, visited as `b`, `a` it names `b`, so the same tree gives two errors. -/
theorem config_validate_error_depends_on_order :
    ([("b", {}), ("a", {})] : List (String × Scrape)).Perm [("a", {}), ("b", {})] ∧
    (Config.Validate sampleDeps (some { Scrapes := [("a", {}), ("b", {})] })).map Error.message =
      some ("invalid scrape " ++ sampleQuote "a" ++ ": no scrape options enabled") ∧
    (Config.Validate sampleDeps (some { Scrapes := [("b", {}), ("a", {})] })).map Error.message =
      some ("invalid scrape " ++ sampleQuote "b" ++ ": no scrape options enabled") ∧
    Config.Validate sampleDeps (some { Scrapes := [("a", {}), ("b", {})] }) ≠
      Config.Validate sampleDeps (some { Scrapes := [("b", {}), ("a", {})] }) :=
  ⟨List.Perm.swap _ _ _, by decide, by decide, by decide⟩

/-- Claim C13, amended: whatever the order in which the scrape entries are visited, whether
`Config.Validate` fails is the same, a failure of the targets gives the same error, and when
at most one scrape entry `q` is rejected the error is the same. -/
theorem config_validate_error_deterministic (deps : Deps) (cfg : Config)
    (visited : List (String × Scrape)) (hperm : visited.Perm cfg.Scrapes) :
    (Config.Validate deps (some { cfg with Scrapes := visited }) = none ↔
      Config.Validate deps (some cfg) = none) ∧
    (∀ e, deps.targetsValidate cfg.Targets = some e →
      Config.Validate deps (some { cfg with Scrapes := visited }) =
        Config.Validate deps (some cfg)) ∧
    (∀ q, (∀ p ∈ cfg.Scrapes, p ≠ q → entryAccepted deps p) →
      Config.Validate deps (some { cfg with Scrapes := visited }) =
        Config.Validate deps (some cfg)) := by
  refine ⟨?_, ?_, ?_⟩
  · cases hT : deps.targetsValidate cfg.Targets with
    | some e => simp [Config.Validate, hT]
    | none =>
      simp only [Config.Validate, hT]
      exact validateScrapes_perm_none deps visited cfg.Scrapes hperm
  · intro e hT
    simp only [Config.Validate, hT]
  · intro q hq
    cases hT : deps.targetsValidate cfg.Targets with
    | some e => simp only [Config.Validate, hT]
    | none =>
      simp only [Config.Validate, hT]
      exact validateScrapes_perm_single_rejected deps q cfg.Scrapes visited hperm hq

/-- Instance of C13 amended: of the two jobs only `b` is rejected, and both orders report
it. -/
theorem config_validate_error_deterministic_witness :
    Config.Validate sampleDeps
        (some { ({ Scrapes := [("a", { Address := "x" }), ("b", {})] } : Config) with
          Scrapes := [("b", {}), ("a", { Address := "x" })] }) =
      Config.Validate sampleDeps (some { Scrapes := [("a", { Address := "x" }), ("b", {})] }) ∧
    (Config.Validate sampleDeps
        (some { Scrapes := [("a", { Address := "x" }), ("b", {})] })).map Error.message =
      some ("invalid scrape " ++ sampleQuote "b" ++ ": no scrape options enabled") :=
  ⟨(config_validate_error_deterministic sampleDeps
      { Scrapes := [("a", { Address := "x" }), ("b", {})] }
      [("b", {}), ("a", { Address := "x" })] (List.Perm.swap _ _ _)).2.2 ("b", {})
      (by decide),
    by decide⟩

/-- Claim C14: a non-nil config whose targets validate and whose scrape map is empty or nil
passes `Config.Validate`, and `Config.Render` returns the filtered output of the template
expansion without error; this covers the empty config when `Targets.Validate` accepts the
empty targets. -/
theorem config_without_scrapes_is_valid (deps : Deps) (cfg : Config)
    (hT : deps.targetsValidate cfg.Targets = none) (hS : cfg.Scrapes = []) :
    Config.Validate deps (some cfg) = none ∧
    (∀ data, deps.tmplRender "config.alloy.tmpl" deps.configTemplate cfg = (data, none) →
      Config.Render deps (some cfg) = (some (stripBlankLines data), none)) := by
  have hv : Config.Validate deps (some cfg) = none := by
    simp only [Config.Validate, hT, hS, validateScrapes]
  refine ⟨hv, ?_⟩
  intro data hdata
  simp only [Config.Render, hv, hdata]

/-- Instance of C14: the empty config of the render test, with every field at its zero
value. -/
theorem config_without_scrapes_is_valid_witness :
    Config.Validate sampleDeps (some {}) = none ∧
    Config.Render sampleDeps (some {}) = (some [97, 10, 98], none) :=
  ⟨(config_without_scrapes_is_valid sampleDeps {} rfl rfl).1,
    ((config_without_scrapes_is_valid sampleDeps {} rfl rfl).2 [97, 10, 10, 32, 9, 10, 98]
      (by decide)).trans (by decide)⟩

/-- Claim C15: when `Targets.Validate` fails with `e` on a non-nil config, `Config.Validate`
returns an error that wraps `e` with the message "invalid targets: " followed by the message
of `e`, whatever the scrape map holds. -/
theorem targets_are_checked_first (deps : Deps) (cfg : Config) (e : Error)
    (h : deps.targetsValidate cfg.Targets = some e) :
    Config.Validate deps (some cfg) = some (ErrorfW "invalid targets: " e) ∧
    (ErrorfW "invalid targets: " e).message = "invalid targets: " ++ e.message ∧
    (∀ scrapes : List (String × Scrape),
      Config.Validate deps (some { cfg with Scrapes := scrapes }) =
        some (ErrorfW "invalid targets: " e)) := by
  refine ⟨?_, rfl, ?_⟩
  · simp only [Config.Validate, h]
  · intro scrapes
    simp only [Config.Validate, h]

/-- Instance of C15: targets rejected as "no url", with a scrape job whose name and options
are both invalid. -/
theorem targets_are_checked_first_witness :
    Config.Validate { sampleDeps with targetsValidate := fun _ => some (Errorf "no url") }
        (some { Scrapes := [("bad name", {})] }) =
      some (ErrorfW "invalid targets: " (Errorf "no url")) ∧
    (ErrorfW "invalid targets: " (Errorf "no url")).message =
      "invalid targets: " ++ (Errorf "no url").message ∧
    (∀ scrapes : List (String × Scrape),
      Config.Validate { sampleDeps with targetsValidate := fun _ => some (Errorf "no url") }
          (some { ({ Scrapes := [("bad name", {})] } : Config) with Scrapes := scrapes }) =
        some (ErrorfW "invalid targets: " (Errorf "no url"))) :=
  targets_are_checked_first
    { sampleDeps with targetsValidate := fun _ => some (Errorf "no url") }
    { Scrapes := [("bad name", {})] } (Errorf "no url") rfl

/-- Claim C16: with valid targets and the scrape entries in the order visited, when every
entry before `(name, s)` passes both checks, `Config.Validate` returns the error of
`(name, s)` alone, whatever the later entries are: the name error, as "invalid scrape name",
when the name is rejected, also if the options are wrong; and the option error, as
"invalid scrape", when the name is accepted. -/
theorem config_validate_fail_fast (deps : Deps) (cfg : Config)
    (before after : List (String × Scrape)) (name : String) (s : Scrape)
    (hT : deps.targetsValidate cfg.Targets = none)
    (hS : cfg.Scrapes = before ++ (name, s) :: after)
    (hbefore : ∀ p ∈ before, entryAccepted deps p) :
    (∀ e, deps.validateIdentifier name = some e →
      Config.Validate deps (some cfg) =
        some (Error.wrapError ("invalid scrape name " ++ deps.quote name ++ ": " ++ e.message)
          e)) ∧
    (∀ e, deps.validateIdentifier name = none → Scrape.Validate (some s) = some e →
      Config.Validate deps (some cfg) =
        some (Error.wrapError ("invalid scrape " ++ deps.quote name ++ ": " ++ e.message)
          e)) := by
  have hv : Config.Validate deps (some cfg) = validateScrapes deps ((name, s) :: after) := by
    simp only [Config.Validate, hT, hS]
    exact validateScrapes_append_accepted deps before _ hbefore
  constructor
  · intro e hN
    rw [hv]
    simp only [validateScrapes, hN, ErrorfW]
  · intro e hN hE
    rw [hv]
    simp only [validateScrapes, hN, hE, ErrorfW]

/-- Instance of C16: after the valid job `ok`, the job `bad name` has an invalid name and no
option, and is followed by `late`, invalid too; the name of `bad name` is what is reported. -/
theorem config_validate_fail_fast_witness :
    Config.Validate sampleDeps (some { Scrapes :=
        [("ok", { Self := { Enable := true } }), ("bad name", {}), ("late", {})] }) =
      some (Error.wrapError ("invalid scrape name " ++ sampleDeps.quote "bad name" ++ ": " ++
        (Errorf "invalid identifier").message) (Errorf "invalid identifier")) :=
  (config_validate_fail_fast sampleDeps
    { Scrapes := [("ok", { Self := { Enable := true } }), ("bad name", {}), ("late", {})] }
    [("ok", { Self := { Enable := true } })] [("late", {})] "bad name" {} rfl rfl
    (by decide)).1 (Errorf "invalid identifier") (by decide)

/-- Claim C18: for two orders of the same scrape entries, `Config.Validate` succeeds under
one exactly when it succeeds under the other. -/
theorem config_validate_success_order_independent (deps : Deps) (cfg : Config)
    (l1 l2 : List (String × Scrape)) (h : l1.Perm l2) :
    Config.Validate deps (some { cfg with Scrapes := l1 }) = none ↔
      Config.Validate deps (some { cfg with Scrapes := l2 }) = none := by
  cases hT : deps.targetsValidate cfg.Targets with
  | some e => simp [Config.Validate, hT]
  | none =>
    simp only [Config.Validate, hT]
    exact validateScrapes_perm_none deps l1 l2 h

/-- Instance of C18: the two orders of the jobs `a` and `b`, both without option, fail
alike. -/
theorem config_validate_success_order_independent_witness :
    ([("b", {}), ("a", {})] : List (String × Scrape)).Perm [("a", {}), ("b", {})] ∧
    (Config.Validate sampleDeps
        (some { ({} : Config) with Scrapes := [("b", {}), ("a", {})] }) = none ↔
      Config.Validate sampleDeps
        (some { ({} : Config) with Scrapes := [("a", {}), ("b", {})] }) = none) :=
  ⟨List.Perm.swap _ _ _,
    config_validate_success_order_independent sampleDeps {} [("b", {}), ("a", {})]
      [("a", {}), ("b", {})] (List.Perm.swap _ _ _)⟩

/-- Claim C20: two configs with the same targets whose scrape entries agree, in order, on
name, on whether the address is set, on `Self.Enable` and on `Unix.Enable`, get the same
result from `Config.Validate`, whatever their other fields are. -/
theorem config_validate_depends_on_view (deps : Deps) (c1 c2 : Config)
    (hT : c1.Targets = c2.Targets)
    (hS : c1.Scrapes.map scrapeView = c2.Scrapes.map scrapeView) :
    Config.Validate deps (some c1) = Config.Validate deps (some c2) := by
  simp only [Config.Validate, hT, validateScrapes_view deps c1.Scrapes c2.Scrapes hS]

/-- Instance of C20: two configs that differ in host name, proxy, log files, Kube flags,
interval, collectors and the text of the address. -/
theorem config_validate_depends_on_view_witness :
    Config.Validate sampleDeps (some {
        Hostname := "node-1", ProxyURL := "the-proxy", LogFiles := ["/var/log/syslog"],
        Kube := { PodLogs := true, Events := true },
        Scrapes := [("job", { IntervalSeconds := 42, Address := "localhost:12345" }),
          ("host", { Unix := { Enable := true, Collectors := ["asd"] }, Address := "x" })] }) =
      Config.Validate sampleDeps (some {
        Scrapes := [("job", { Address := "10.0.0.1:9100" }),
          ("host", { Unix := { Enable := true }, Address := "y" })] }) :=
  config_validate_depends_on_view sampleDeps _ _ rfl (by decide)

/-! ## Calls made by the validator: lemmas and the claim -/

theorem validateScrapesTraced_fst (deps : Deps) (l : List (String × Scrape)) :
    (validateScrapesTraced deps l).1 = validateScrapes deps l := by
  induction l with
  | nil => rfl
  | cons p rest ih =>
    obtain ⟨name, scrape⟩ := p
    cases hN : deps.validateIdentifier name with
    | some e => simp only [validateScrapesTraced, validateScrapes, hN]
    | none =>
      cases hS : Scrape.Validate (some scrape) with
      | some e => simp only [validateScrapesTraced, validateScrapes, hN, hS]
      | none => simp only [validateScrapesTraced, validateScrapes, hN, hS, ih]

theorem validateScrapesTraced_calls (deps : Deps) (l : List (String × Scrape)) :
    ∀ c ∈ (validateScrapesTraced deps l).2,
      (∃ name, c = Call.validateIdentifier name) ∨ (∃ scrape, c = Call.scrapeValidate scrape) := by
  induction l with
  | nil => intro c hc; simp [validateScrapesTraced] at hc
  | cons p rest ih =>
    obtain ⟨name, scrape⟩ := p
    intro c hc
    cases hN : deps.validateIdentifier name with
    | some e =>
      simp only [validateScrapesTraced, hN, List.mem_singleton] at hc
      exact Or.inl ⟨name, hc⟩
    | none =>
      cases hS : Scrape.Validate (some scrape) with
      | some e =>
        simp only [validateScrapesTraced, hN, hS, List.mem_cons, List.mem_singleton,
          List.not_mem_nil, or_false] at hc
        rcases hc with hc | hc
        · exact Or.inl ⟨name, hc⟩
        · exact Or.inr ⟨scrape, hc⟩
      | none =>
        simp only [validateScrapesTraced, hN, hS, List.mem_cons] at hc
        rcases hc with hc | hc | hc
        · exact Or.inl ⟨name, hc⟩
        · exact Or.inr ⟨scrape, hc⟩
        · exact ih c hc

theorem validateTraced_fst (deps : Deps) (c : Option Config) :
    (Config.ValidateTraced deps c).1 = Config.Validate deps c := by
  cases c with
  | none => rfl
  | some cfg =>
    cases hT : deps.targetsValidate cfg.Targets with
    | some e => simp only [Config.ValidateTraced, Config.Validate, hT]
    | none =>
      simp only [Config.ValidateTraced, Config.Validate, hT, validateScrapesTraced_fst]

theorem validateTraced_calls (deps : Deps) (c : Option Config) :
    ∀ call ∈ (Config.ValidateTraced deps c).2,
      (∃ targets, call = Call.targetsValidate targets) ∨
        (∃ name, call = Call.validateIdentifier name) ∨
        (∃ scrape, call = Call.scrapeValidate scrape) := by
  intro call hcall
  cases c with
  | none => simp [Config.ValidateTraced] at hcall
  | some cfg =>
    cases hT : deps.targetsValidate cfg.Targets with
    | some e =>
      simp only [Config.ValidateTraced, hT, List.mem_singleton] at hcall
      exact Or.inl ⟨_, hcall⟩
    | none =>
      simp only [Config.ValidateTraced, hT, List.mem_cons] at hcall
      rcases hcall with hcall | hcall
      · exact Or.inl ⟨_, hcall⟩
      · exact Or.inr (validateScrapesTraced_calls deps cfg.Scrapes call hcall)

/-- Counterexample to C17: on a config with one valid scrape job and both Kube flags set,
`Config.Validate` succeeds after three calls, `Targets.Validate`, `validateIdentifier` and
`Scrape.Validate`; the run ends with the scrape job, and no step validates the Kube
sub-config. -/
theorem config_validate_has_no_kube_step :
    Config.ValidateTraced sampleDeps (some
        { Scrapes := [("job", { Address := "localhost:12345" })],
          Kube := { PodLogs := true, Events := true } }) =
      (none, [Call.targetsValidate {}, Call.validateIdentifier "job",
        Call.scrapeValidate { Address := "localhost:12345" }]) ∧
    Call.kubeValidate { PodLogs := true, Events := true } ∉
      (Config.ValidateTraced sampleDeps (some
        { Scrapes := [("job", { Address := "localhost:12345" })],
          Kube := { PodLogs := true, Events := true } })).2 := by
  decide

/-- Claim C17, amended: `Config.Validate` returns what its run with the calls recorded
returns, and the validators it calls are `Targets.Validate`, `validateIdentifier` and
`Scrape.Validate` only, never `Kube.Validate`; `Kube.Validate` is only a non-nil check, which
accepts every non-nil Kube whatever `PodLogs` and `Events` are and rejects nil; and
`Config.Validate` returns the same whatever the Kube sub-config is. -/
theorem config_validate_never_validates_kube (deps : Deps) (c : Option Config) :
    (Config.ValidateTraced deps c).1 = Config.Validate deps c ∧
    (∀ k : Kube, Call.kubeValidate k ∉ (Config.ValidateTraced deps c).2) ∧
    (∀ k : Option Kube, Kube.Validate k = none ↔ k ≠ none) ∧
    (∀ podLogs events : Bool,
      Kube.Validate (some { PodLogs := podLogs, Events := events }) = none) ∧
    (∀ (cfg : Config) (k : Kube),
      Config.Validate deps (some { cfg with Kube := k }) = Config.Validate deps (some cfg)) := by
  refine ⟨validateTraced_fst deps c, ?_, ?_, fun _ _ => rfl, ?_⟩
  · intro k hk
    rcases validateTraced_calls deps c _ hk with ⟨t, h⟩ | ⟨n, h⟩ | ⟨sc, h⟩ <;> cases h
  · intro k
    cases k with
    | none => simp [Kube.Validate]
    | some k0 => simp [Kube.Validate]
  · intro cfg k
    simp only [Config.Validate]

/-! ## The data tree and the order of its mappings: lemmas and the claim -/

theorem eq_of_perm_of_keys {β : Type} : ∀ (l1 l2 : List (String × β)), l1.Perm l2 →
    l1.map Prod.fst = l2.map Prod.fst → (l1.map Prod.fst).Nodup → l1 = l2 := by
  intro l1
  induction l1 with
  | nil =>
    intro l2 hperm _ _
    exact hperm.nil_eq
  | cons a rest ih =>
    intro l2 hperm hkeys hnodup
    cases l2 with
    | nil => simp at hkeys
    | cons b rest2 =>
      simp only [List.map_cons, List.cons.injEq] at hkeys
      obtain ⟨hab, hrest⟩ := hkeys
      simp only [List.map_cons, List.nodup_cons] at hnodup
      obtain ⟨hnot, hnodup2⟩ := hnodup
      have hmem : a ∈ b :: rest2 := hperm.mem_iff.1 (List.mem_cons_self _ _)
      have heq : a = b := by
        rcases List.mem_cons.1 hmem with h | h
        · exact h
        · exfalso
          apply hnot
          rw [hrest]
          exact List.mem_map_of_mem Prod.fst h
      subst heq
      rw [ih rest2 hperm.cons_inv hrest hnodup2]

theorem sortByKey_keys {β : Type} (l : List (String × β)) :
    (sortByKey l).map Prod.fst = (l.map Prod.fst).insertionSort (fun a b => a ≤ b) :=
  List.map_insertionSort _ _ Prod.fst l (fun _ _ _ _ => Iff.rfl)

theorem sortByKey_perm {β : Type} (l : List (String × β)) : (sortByKey l).Perm l :=
  List.perm_insertionSort _ l

theorem sortByKey_eq_of_perm {β : Type} (l1 l2 : List (String × β)) (h : l1.Perm l2)
    (hk : (l1.map Prod.fst).Nodup) : sortByKey l1 = sortByKey l2 := by
  have hperm : (sortByKey l1).Perm (sortByKey l2) :=
    ((sortByKey_perm l1).trans h).trans (sortByKey_perm l2).symm
  apply eq_of_perm_of_keys _ _ hperm
  · rw [sortByKey_keys, sortByKey_keys]
    exact List.eq_of_perm_of_sorted
      (((List.perm_insertionSort _ _).trans (h.map Prod.fst)).trans
        (List.perm_insertionSort _ _).symm)
      (List.sorted_insertionSort _ _) (List.sorted_insertionSort _ _)
  · exact ((sortByKey_perm l1).map Prod.fst).nodup_iff.2 hk

theorem map_eq_of_forall₂ {β : Type} (R : β → β → Prop) (f : String × β → String × β) :
    ∀ (mid l2 : List (String × β)),
      List.Forall₂ (fun a b => a.1 = b.1 ∧ R a.2 b.2) mid l2 →
      (∀ a ∈ mid, ∀ b, a.1 = b.1 → R a.2 b.2 → f a = f b) → mid.map f = l2.map f := by
  intro mid
  induction mid with
  | nil =>
    intro l2 h _
    cases h
    rfl
  | cons a rest ih =>
    intro l2 h hf
    cases h with
    | cons hab hrest =>
      simp only [List.map_cons]
      rw [hf a (List.mem_cons_self _ _) _ hab.1 hab.2,
        ih _ hrest (fun x hx => hf x (List.mem_cons_of_mem _ hx))]

theorem sortByKey_map_eq_of_sameMap {β : Type} (R : β → β → Prop)
    (f : String × β → String × β) (hkey : ∀ p, (f p).1 = p.1)
    (l1 l2 : List (String × β)) (h : SameMap R l1 l2)
    (hf : ∀ a ∈ l1, ∀ b, a.1 = b.1 → R a.2 b.2 → f a = f b)
    (hk : (l1.map Prod.fst).Nodup) :
    sortByKey (l1.map f) = sortByKey (l2.map f) := by
  obtain ⟨mid, hperm, hall⟩ := h
  have hmid : mid.map f = l2.map f :=
    map_eq_of_forall₂ R f mid l2 hall (fun a ha => hf a (hperm.mem_iff.2 ha))
  rw [← hmid]
  apply sortByKey_eq_of_perm _ _ (hperm.map f)
  have hfst : (l1.map f).map Prod.fst = l1.map Prod.fst := by
    rw [List.map_map]
    exact List.map_congr_left (fun p _ => hkey p)
  rw [hfst]
  exact hk

theorem canonicalTarget_eq (t1 t2 : Target) (h : SameTarget t1 t2)
    (hk : (t1.Labels.map Prod.fst).Nodup) : canonicalTarget t1 = canonicalTarget t2 := by
  obtain ⟨url1, auth1, token1, skip1, labels1⟩ := t1
  obtain ⟨url2, auth2, token2, skip2, labels2⟩ := t2
  obtain ⟨h1, h2, h3, h4, h5⟩ := h
  simp only at h1 h2 h3 h4 h5 hk
  subst h1 h2 h3 h4
  simp only [canonicalTarget, sortByKey_eq_of_perm labels1 labels2 h5 hk]

theorem canonicalTargets_eq (t1 t2 : Targets) (h : SameTargets t1 t2)
    (hp : (t1.Prometheus.map Prod.fst).Nodup) (hl : (t1.Loki.map Prod.fst).Nodup)
    (hpl : ∀ p ∈ t1.Prometheus, (p.2.Target.Labels.map Prod.fst).Nodup)
    (hll : ∀ p ∈ t1.Loki, (p.2.Target.Labels.map Prod.fst).Nodup) :
    canonicalTargets t1 = canonicalTargets t2 := by
  obtain ⟨hprom, hloki⟩ := h
  have h1 : sortByKey (t1.Prometheus.map canonicalPrometheus) =
      sortByKey (t2.Prometheus.map canonicalPrometheus) := by
    apply sortByKey_map_eq_of_sameMap _ canonicalPrometheus (fun _ => rfl) _ _ hprom _ hp
    intro a ha b hab hR
    obtain ⟨ka, va⟩ := a
    obtain ⟨kb, vb⟩ := b
    obtain ⟨ta, ia⟩ := va
    obtain ⟨tb, ib⟩ := vb
    simp only at hab hR
    obtain ⟨hT, hI⟩ := hR
    subst hab hI
    simp only [canonicalPrometheus, canonicalTarget_eq ta tb hT (hpl _ ha)]
  have h2 : sortByKey (t1.Loki.map canonicalLoki) =
      sortByKey (t2.Loki.map canonicalLoki) := by
    apply sortByKey_map_eq_of_sameMap _ canonicalLoki (fun _ => rfl) _ _ hloki _ hl
    intro a ha b hab hR
    obtain ⟨ka, va⟩ := a
    obtain ⟨kb, vb⟩ := b
    obtain ⟨ta⟩ := va
    obtain ⟨tb⟩ := vb
    simp only at hab hR
    subst hab
    simp only [canonicalLoki, canonicalTarget_eq ta tb hR (hll _ ha)]
  simp only [canonicalTargets, h1, h2]

theorem canonicalTree_eq (c1 c2 : Config) (hkeys : UniqueKeys c1) (hsame : SameTree c1 c2) :
    canonicalTree c1 = canonicalTree c2 := by
  obtain ⟨hs, hp, hl, hpl, hll⟩ := hkeys
  obtain ⟨h1, h2, h3, h4, h5, h6⟩ := hsame
  obtain ⟨host1, targets1, proxy1, scrapes1, logs1, kube1⟩ := c1
  obtain ⟨host2, targets2, proxy2, scrapes2, logs2, kube2⟩ := c2
  simp only at h1 h2 h3 h4 h5 h6 hs hp hl hpl hll
  subst h1 h3 h5 h6
  simp only [canonicalTree, canonicalTargets_eq targets1 targets2 h2 hp hl hpl hll,
    sortByKey_eq_of_perm scrapes1 scrapes2 h4 hs]

/-- Claim C12: with `Targets.Validate` and the template engine reading the data tree, two
calls of `Config.Render` on a valid tree return the same bytes whatever the order in which the
entries of its mappings are visited: for two values of the same tree, whose scrape jobs,
destinations and labels are the same entries in any order, the second is valid when the first
is, both render to the same result, and that result is the filter of the text expanded from
the tree. -/
theorem render_independent_of_map_order (base : Deps) (c1 c2 : Config)
    (hkeys : UniqueKeys c1) (hsame : SameTree c1 c2)
    (hvalid : Config.Validate (treeReadingDeps base) (some c1) = none) :
    Config.Validate (treeReadingDeps base) (some c2) = none ∧
    Config.Render (treeReadingDeps base) (some c2) =
      Config.Render (treeReadingDeps base) (some c1) ∧
    (∀ data,
      base.tmplRender "config.alloy.tmpl" base.configTemplate (canonicalTree c1) = (data, none) →
      Config.Render (treeReadingDeps base) (some c2) = (some (stripBlankLines data), none)) := by
  have htree : canonicalTree c1 = canonicalTree c2 := canonicalTree_eq c1 c2 hkeys hsame
  have htargets : canonicalTargets c1.Targets = canonicalTargets c2.Targets :=
    canonicalTargets_eq _ _ hsame.2.1 hkeys.2.1 hkeys.2.2.1 hkeys.2.2.2.1 hkeys.2.2.2.2
  have hT : base.targetsValidate (canonicalTargets c1.Targets) = none := by
    cases h : base.targetsValidate (canonicalTargets c1.Targets) with
    | none => rfl
    | some e => simp [Config.Validate, treeReadingDeps, h] at hvalid
  have hS : validateScrapes (treeReadingDeps base) c1.Scrapes = none := by
    simpa [Config.Validate, treeReadingDeps, hT] using hvalid
  have hvalid2 : Config.Validate (treeReadingDeps base) (some c2) = none := by
    have hS2 := (validateScrapes_perm_none (treeReadingDeps base) c1.Scrapes c2.Scrapes
      hsame.2.2.2.1).1 hS
    have hT2 : (treeReadingDeps base).targetsValidate c2.Targets = none := by
      show base.targetsValidate (canonicalTargets c2.Targets) = none
      rw [← htargets]
      exact hT
    simp only [Config.Validate, hT2, hS2]
  have hengine : (treeReadingDeps base).tmplRender "config.alloy.tmpl"
      (treeReadingDeps base).configTemplate c2 =
      (treeReadingDeps base).tmplRender "config.alloy.tmpl"
        (treeReadingDeps base).configTemplate c1 := by
    show base.tmplRender _ _ (canonicalTree c2) = base.tmplRender _ _ (canonicalTree c1)
    rw [htree]
  have hsameR : Config.Render (treeReadingDeps base) (some c2) =
      Config.Render (treeReadingDeps base) (some c1) := by
    simp only [Config.Render, hvalid, hvalid2, hengine]
  refine ⟨hvalid2, hsameR, ?_⟩
  intro data hdata
  have hdata1 : (treeReadingDeps base).tmplRender "config.alloy.tmpl"
      (treeReadingDeps base).configTemplate c1 = (data, none) := hdata
  rw [hsameR]
  simp only [Config.Render, hvalid, hdata1]

/-- Instance of C12: `orderSampleB` lists the destinations, the labels and the scrape jobs
of `orderSampleA` in another order; the sample engine, which prints names in the order it is
given, prints different texts for the two lists as they are, and the two render alike. -/
theorem render_independent_of_map_order_witness :
    UniqueKeys orderSampleA ∧ SameTree orderSampleA orderSampleB ∧
    listingRender "" "" orderSampleA ≠ listingRender "" "" orderSampleB ∧
    Config.Validate (treeReadingDeps listingDeps) (some orderSampleB) = none ∧
    Config.Render (treeReadingDeps listingDeps) (some orderSampleB) =
      Config.Render (treeReadingDeps listingDeps) (some orderSampleA) :=
  have hkeys : UniqueKeys orderSampleA := by
    unfold UniqueKeys
    decide
  have hsame : SameTree orderSampleA orderSampleB :=
    ⟨rfl,
      ⟨⟨[("another", { Target := anotherTarget }), ("grafana_cloud", { Target := cloudTarget })],
        List.Perm.swap _ _ _,
        List.Forall₂.cons ⟨rfl, ⟨rfl, rfl, rfl, rfl, List.Perm.refl _⟩, rfl⟩
          (List.Forall₂.cons ⟨rfl, ⟨rfl, rfl, rfl, rfl, List.Perm.swap _ _ _⟩, rfl⟩
            List.Forall₂.nil)⟩,
       ⟨[], List.Perm.refl _, List.Forall₂.nil⟩⟩,
      rfl, List.Perm.swap _ _ _, rfl, rfl⟩
  have h := render_independent_of_map_order listingDeps orderSampleA orderSampleB hkeys hsame
    (by decide)
  ⟨hkeys, hsame, by decide, h.1, h.2.1⟩

end Alloy
